import Mathlib

/-!
# Flight-price pipeline: incremental load and change-tracking subsystem

A shallow embedding of the incremental-loading core of the flight-price ETL
pipeline (`scripts/data_ingestion.py`, `scripts/data_transformation.py`,
`dags/config/pipeline_config.py`), together with theorems settling the
spec's claims about it.

Modelling conventions:
* Record fields are modelled as the strings they render to inside Python
  f-strings (the fingerprint code only ever consumes the rendered strings).
* The external digest primitives `hashlib.md5(...).hexdigest()` and
  `hashlib.sha256(...).hexdigest()` are library collaborators, modelled as
  abstract functions `String → String` passed in as parameters.
* Database tables are modelled as lists of row structures; statements
  (`UPDATE`, `INSERT`, `TRUNCATE`, upserts) become pure functions on them.
* Per-batch `to_sql` failures are modelled by an oracle `ifails : Nat → Bool`
  giving, for each batch index, whether that batch's insert raises.
-/

set_option maxRecDepth 4096

/-- A flight-price record after column standardization and cleaning
(`standardize_column_names` / `clean_and_prepare_data`).  Each field is the
string it renders to in a Python f-string; a missing field renders as `""`
(`row.get(col, '')`). -/
structure Rec where
  airline : String
  source : String
  destination : String
  date_of_journey : String
  departure_time : String
  base_fare : String
  tax_surcharge : String
  total_fare : String
  arrival_time : String
  duration : String
  stops : String
deriving DecidableEq, Repr

/-- `pipeline_config.HASH_ALGORITHM` (pipeline_config.py line 64). -/
def HASH_ALGORITHM : String := "md5"

/-- `pipeline_config.BATCH_SIZE` (pipeline_config.py line 59). -/
def BATCH_SIZE : Nat := 1000

/-- `pipeline_config.FULL_REFRESH_DAY` default (pipeline_config.py line 63,
`0 = Sunday for weekly full refresh`). -/
def FULL_REFRESH_DAY : Nat := 0

namespace DataIngestion

/-- The `key_fields` string built by `DataIngestion.generate_record_hash`
(data_ingestion.py lines 247-255): the ordered `|`-separated concatenation of
the seven identity fields. -/
def key_fields (r : Rec) : String :=
  r.airline ++ "|" ++ r.source ++ "|" ++ r.destination ++ "|" ++
  r.date_of_journey ++ "|" ++ r.departure_time ++ "|" ++
  r.base_fare ++ "|" ++ r.total_fare

/-- `DataIngestion.generate_record_hash` (data_ingestion.py lines 235-264):
hashes `key_fields` with the configured algorithm.  `md5H` and `sha256H`
stand for the hashlib digest collaborators. -/
def generate_record_hash (md5H sha256H : String → String) (r : Rec) : String :=
  if HASH_ALGORITHM = "sha256" then sha256H (key_fields r)
  else md5H (key_fields r)

end DataIngestion

namespace DataTransformer

/-- The `key_fields` string built by `DataTransformer.generate_record_hash`
(data_transformation.py lines 101-107): only five fields — the fare fields
are absent. -/
def key_fields (r : Rec) : String :=
  r.airline ++ "|" ++ r.source ++ "|" ++ r.destination ++ "|" ++
  r.date_of_journey ++ "|" ++ r.departure_time

/-- `DataTransformer.generate_record_hash` (data_transformation.py lines
98-115). -/
def generate_record_hash (md5H sha256H : String → String) (r : Rec) : String :=
  if HASH_ALGORITHM = "sha256" then sha256H (key_fields r)
  else md5H (key_fields r)

end DataTransformer

/-! ## Load strategy selection -/

/-- A day of the week, used to model `datetime.now().weekday()`. -/
inductive Day
  | sunday | monday | tuesday | wednesday | thursday | friday | saturday
deriving DecidableEq, Repr

/-- Python's `datetime.weekday()` indexing: Monday is 0, ..., Sunday is 6. -/
def pythonWeekday : Day → Nat
  | .monday => 0 | .tuesday => 1 | .wednesday => 2 | .thursday => 3
  | .friday => 4 | .saturday => 5 | .sunday => 6

/-- The Sunday-starts-the-week indexing the spec describes (Sunday 0,
Monday 1, ..., Saturday 6).  Kept separate from the source-derived
definitions so the two conventions can be compared. -/
def sundayStartIndex : Day → Nat
  | .sunday => 0 | .monday => 1 | .tuesday => 2 | .wednesday => 3
  | .thursday => 4 | .friday => 5 | .saturday => 6

/-- The weekday canonicalization in `should_use_incremental_load`
(data_ingestion.py lines 490-492): `if today_weekday == 6: today_weekday = 0`. -/
def canonicalizeWeekday (w : Nat) : Nat :=
  if w = 6 then 0 else w

/-- The canonical index `should_use_incremental_load` actually compares
against `FULL_REFRESH_DAY`: Sunday is sent to 0, every other day keeps
Python's Monday-is-0 index.  Note Monday also lands on 0. -/
def observedCanonicalIndex (d : Day) : Nat :=
  canonicalizeWeekday (pythonWeekday d)

/-- `DataIngestion.should_use_incremental_load` (data_ingestion.py lines
474-499), with the configuration flag, the configured full-refresh day and
today's Python weekday made explicit parameters.  `true` means INCREMENTAL,
`false` means FULL_REFRESH. -/
def should_use_incremental_load (useIncrementalLoad : Bool)
    (fullRefreshDay : Nat) (todayWeekday : Nat) : Bool :=
  if !useIncrementalLoad then false
  else if canonicalizeWeekday todayWeekday = fullRefreshDay then false
  else true

/-! ## Staging store model and incremental load -/

/-- A row of `staging_flights` as the incremental path sees it: its record
data, its `record_hash` column (nullable in SQL, hence `Option`) and its
`is_active` flag. -/
structure StagingRow where
  data : Rec
  record_hash : Option String
  is_active : Bool
deriving DecidableEq, Repr

/-- `DataIngestion.get_existing_hashes` (data_ingestion.py lines 268-283):
`SELECT record_hash FROM staging_flights WHERE is_active = TRUE AND
record_hash IS NOT NULL`, collected into a set; on any storage error the
exception is caught and the empty set returned.  The storage read outcome is
the `Except` argument. -/
def get_existing_hashes (readResult : Except String (List StagingRow)) :
    Finset String :=
  match readResult with
  | .error _ => ∅
  | .ok rows =>
      ((rows.filter (fun row => row.is_active)).filterMap
        (fun row => row.record_hash)).toFinset

/-- The set of fingerprints of the records currently flagged active in a
staging table (a successful baseline read). -/
def activeHashes (table : List StagingRow) : Finset String :=
  get_existing_hashes (.ok table)

/-- `new_records` classification (data_ingestion.py line 316-317): the rows
whose `record_hash` is not in the baseline set. -/
def new_records (H : Rec → String) (df : List Rec)
    (existing : Finset String) : List Rec :=
  df.filter (fun r => decide (H r ∉ existing))

/-- `existing_records` classification (data_ingestion.py line 318): the rows
whose `record_hash` is in the baseline set. -/
def existing_records (H : Rec → String) (df : List Rec)
    (existing : Finset String) : List Rec :=
  df.filter (fun r => decide (H r ∈ existing))

/-- `incoming_hashes` (data_ingestion.py line 358): the set of fingerprints
of the incoming batch. -/
def incoming_hashes (H : Rec → String) (df : List Rec) : Finset String :=
  (df.map H).toFinset

/-- `hashes_to_deactivate` (data_ingestion.py line 359):
`existing_hashes - incoming_hashes`. -/
def hashes_to_deactivate (H : Rec → String) (df : List Rec)
    (existing : Finset String) : Finset String :=
  existing \ incoming_hashes H df

/-- The batch slicing `for i in range(0, len(l), batch_size):
l.iloc[i:i+batch_size]` (data_ingestion.py lines 341-342): the list cut into
consecutive chunks of `n` elements (the last chunk possibly shorter). -/
def chunksOf (n : Nat) (l : List Rec) : List (List Rec) :=
  match l with
  | [] => []
  | x :: xs => (x :: xs.take (n - 1)) :: chunksOf n (xs.drop (n - 1))
termination_by l.length
decreasing_by simp [List.length_drop]; omega

/-- The batch-insert loop (data_ingestion.py lines 341-355), starting at
batch index `i`: a failing batch (per the oracle `ifails`) is caught and
logged — its rows are neither inserted nor counted anywhere — and the loop
continues; a succeeding batch adds its rows and its length to
`rows_inserted`.  Returns `(rows_inserted, rows actually inserted)`. -/
def run_insert_batches (ifails : Nat → Bool) :
    Nat → List (List Rec) → Nat × List Rec
  | _, [] => (0, [])
  | i, c :: cs =>
      let rest := run_insert_batches ifails (i + 1) cs
      if ifails i then rest else (c.length + rest.1, c ++ rest.2)

/-- The total size of the batches whose insert failed: the spec's notion of
a "failed-row count" for the insert path, kept alongside the source model to
compare against what the code reports. -/
def spec_failed_row_count (ifails : Nat → Bool) :
    Nat → List (List Rec) → Nat
  | _, [] => 0
  | i, c :: cs =>
      let rest := spec_failed_row_count ifails (i + 1) cs
      if ifails i then c.length + rest else rest

/-- The deactivation UPDATE (data_ingestion.py lines 361-381):
`SET is_active = FALSE WHERE record_hash IN (...)` over the whole
deactivation set (the 1000-wise batching of the IN-list does not change the
net table effect when all batches execute). -/
def apply_deactivation (s : Finset String) (table : List StagingRow) :
    List StagingRow :=
  table.map (fun row =>
    if (match row.record_hash with
        | some h => decide (h ∈ s)
        | none => false) then
      { row with is_active := false }
    else row)

/-- Result of one incremental staging load: the returned triple
`(rows_inserted, rows_updated, rows_unchanged)` plus the effects on the
store (the deactivated fingerprint set and the resulting table). -/
structure LoadOutcome where
  rows_inserted : Nat
  rows_updated : Nat
  rows_unchanged : Nat
  deactivated : Finset String
  table : List StagingRow

/-- `DataIngestion.load_to_staging_incremental` (data_ingestion.py lines
287-386): fingerprint every row, read the baseline, classify, insert the
new rows in `BATCH_SIZE` batches (each batch's failure caught and skipped),
then deactivate the baseline fingerprints absent from the incoming batch.
Returns `rows_updated = 0` always (line 386). -/
def load_to_staging_incremental (md5H sha256H : String → String)
    (ifails : Nat → Bool) (df : List Rec) (table : List StagingRow) :
    LoadOutcome :=
  let H := DataIngestion.generate_record_hash md5H sha256H
  let existing := activeHashes table
  let newRecs := new_records H df existing
  let unchanged := existing_records H df existing
  let ins := run_insert_batches ifails 0 (chunksOf BATCH_SIZE newRecs)
  let insertedRows := ins.2.map (fun r =>
    { data := r, record_hash := some (H r), is_active := true : StagingRow })
  let deact := hashes_to_deactivate H df existing
  { rows_inserted := ins.1
    rows_updated := 0
    rows_unchanged := unchanged.length
    deactivated := deact
    table := apply_deactivation deact (table ++ insertedRows) }

/-- The run-result dictionary built by `DataIngestion.execute_ingestion`
(data_ingestion.py lines 545-553). -/
structure IngestionRunResult where
  status : String
  load_mode : String
  total_records : Nat
  rows_inserted : Nat
  rows_updated : Nat
  rows_unchanged : Nat
  rows_failed : Nat
deriving DecidableEq, Repr

/-- The INCREMENTAL branch of `DataIngestion.execute_ingestion`
(data_ingestion.py lines 527-553): run the incremental load, set
`rows_failed = 0` (line 531), and report.  Returns the run result and the
resulting staging table. -/
def execute_ingestion_incremental (md5H sha256H : String → String)
    (ifails : Nat → Bool) (df : List Rec) (table : List StagingRow) :
    IngestionRunResult × List StagingRow :=
  let out := load_to_staging_incremental md5H sha256H ifails df table
  ({ status := "SUCCESS"
     load_mode := "INCREMENTAL"
     total_records := df.length
     rows_inserted := out.rows_inserted
     rows_updated := out.rows_updated
     rows_unchanged := out.rows_unchanged
     rows_failed := 0 }, out.table)

/-! ## Analytics store model: versioned upsert and full refresh

The `flights_analytics` schema itself (column defaults, the unique index
backing `ON CONFLICT`) lives in migration SQL that is not part of the
source tree; only the statements in `data_transformation.py` are.  The
pieces missing from the source are modelled from the spec and flagged in
the doc comments. -/

/-- A record as prepared by `save_to_analytics_db_incremental`
(data_transformation.py lines 377-392) just before the upsert: the
transformed columns plus the row's transformation fingerprint.  Field values
are modelled as strings (their rendered values). -/
structure TransformedRec where
  airline : String
  source : String
  destination : String
  date_of_journey : String
  departure_time : String
  base_fare : String
  tax_surcharge : String
  total_fare : String
  arrival_time : String
  duration : String
  stops : String
  season : String
  is_peak_season : Bool
deriving DecidableEq, Repr

/-- A row of `flights_analytics`.  `version_number` and `created_date`
(the first-seen timestamp) are tracking columns; `created_date` is modelled
from the spec (its column is declared in migration SQL outside the source
tree), and the upsert statement in the source never mentions it. -/
structure AnalyticsRow where
  airline : String
  source : String
  destination : String
  date_of_journey : String
  departure_time : String
  base_fare : String
  tax_surcharge : String
  total_fare : String
  arrival_time : String
  duration : String
  stops : String
  season : String
  is_peak_season : Bool
  record_hash : String
  version_number : Nat
  is_active : Bool
  created_date : String
  last_updated_date : String
deriving DecidableEq, Repr

/-- The identity key of the upsert: the `ON CONFLICT (airline, source,
destination, date_of_journey, departure_time)` column list
(data_transformation.py line 431). -/
def AnalyticsRow.businessKey (row : AnalyticsRow) :
    String × String × String × String × String :=
  (row.airline, row.source, row.destination, row.date_of_journey,
   row.departure_time)

/-- The same identity key read off an incoming transformed record. -/
def TransformedRec.businessKey (t : TransformedRec) :
    String × String × String × String × String :=
  (t.airline, t.source, t.destination, t.date_of_journey, t.departure_time)

/-- The column view of a transformed record that
`save_to_analytics_db_incremental` passes to the fingerprint function
(data_transformation.py line 390: `df.apply(self.generate_record_hash,
axis=1)`). -/
def TransformedRec.toRec (t : TransformedRec) : Rec :=
  { airline := t.airline, source := t.source, destination := t.destination,
    date_of_journey := t.date_of_journey,
    departure_time := t.departure_time, base_fare := t.base_fare,
    tax_surcharge := t.tax_surcharge, total_fare := t.total_fare,
    arrival_time := t.arrival_time, duration := t.duration,
    stops := t.stops }

/-- The `DO UPDATE SET` arm of the upsert (data_transformation.py lines
432-444) applied to a conflicting row: every mutable column is overwritten
from the excluded row, `version_number` becomes `version_number + 1`,
`last_updated_date` is refreshed, `is_active` is set from the incoming row
(always `true`, line 392); the key columns and `created_date` are not
touched. -/
def upsertUpdate (t : TransformedRec) (h now : String) (row : AnalyticsRow) :
    AnalyticsRow :=
  { row with
    base_fare := t.base_fare
    tax_surcharge := t.tax_surcharge
    total_fare := t.total_fare
    arrival_time := t.arrival_time
    duration := t.duration
    stops := t.stops
    season := t.season
    is_peak_season := t.is_peak_season
    record_hash := h
    last_updated_date := now
    version_number := row.version_number + 1
    is_active := true }

/-- The plain-insert arm of the upsert (data_transformation.py lines
417-430): the inserted column list carries the transformed columns,
`record_hash`, `last_updated_date` and `is_active = true`;
`version_number = 1` and `created_date = now` come from the analytics
table's column defaults — modelled from the spec: "on no conflict, insert
with version number = 1, active = true, first-seen = now" (the defaults live
in migration SQL absent from the source tree). -/
def upsertInsert (t : TransformedRec) (h now : String) : AnalyticsRow :=
  { airline := t.airline
    source := t.source
    destination := t.destination
    date_of_journey := t.date_of_journey
    departure_time := t.departure_time
    base_fare := t.base_fare
    tax_surcharge := t.tax_surcharge
    total_fare := t.total_fare
    arrival_time := t.arrival_time
    duration := t.duration
    stops := t.stops
    season := t.season
    is_peak_season := t.is_peak_season
    record_hash := h
    version_number := 1
    is_active := true
    created_date := now
    last_updated_date := now }

/-- One row of the `INSERT ... ON CONFLICT ... DO UPDATE` statement
(data_transformation.py lines 415-451): if some row of the table matches on
the business key, every matching row takes the update arm (the unique index
behind `ON CONFLICT` guarantees at most one in a real store); otherwise the
row is appended with the insert-arm defaults.  The `Bool` mirrors the
`(xmax = 0) AS inserted` flag. -/
def upsert_row (t : TransformedRec) (h now : String)
    (table : List AnalyticsRow) : List AnalyticsRow × Bool :=
  if table.any (fun row => decide (row.businessKey = t.businessKey)) then
    (table.map (fun row =>
      if row.businessKey = t.businessKey then upsertUpdate t h now row
      else row), false)
  else
    (table ++ [upsertInsert t h now], true)

/-- `DataTransformer.save_to_analytics_db_incremental`
(data_transformation.py lines 361-468): fingerprint each transformed record
with `DataTransformer.generate_record_hash`, stamp `last_updated_date` and
`is_active = true`, and upsert row by row, accumulating the
inserted/updated counts from the `xmax = 0` flags.  Returns
`(rows_inserted, rows_updated, final table)`. -/
def save_to_analytics_db_incremental (md5H sha256H : String → String)
    (now : String) (df : List TransformedRec) (table : List AnalyticsRow) :
    Nat × Nat × List AnalyticsRow :=
  match df with
  | [] => (0, 0, table)
  | t :: ts =>
      let h := DataTransformer.generate_record_hash md5H sha256H t.toRec
      let step := upsert_row t h now table
      let rest := save_to_analytics_db_incremental md5H sha256H now ts step.1
      if step.2 then (rest.1 + 1, rest.2.1, rest.2.2)
      else (rest.1, rest.2.1 + 1, rest.2.2)

/-- `DataTransformer.save_to_analytics_db` (data_transformation.py lines
299-357), the full-refresh path: `TRUNCATE TABLE flights_analytics` then
plain batch inserts of the transformed columns.  The inserted rows carry no
tracking columns, so those take the table's column defaults — modelled from
the spec's insert contract (version number 1, active, first-seen now); the
fingerprint column is absent from the insert list and modelled as its empty
default.  Returns `(records saved, final table)`. -/
def save_to_analytics_db (now : String) (df : List TransformedRec)
    (_table : List AnalyticsRow) : Nat × List AnalyticsRow :=
  (df.length, df.map (fun t =>
    { airline := t.airline
      source := t.source
      destination := t.destination
      date_of_journey := t.date_of_journey
      departure_time := t.departure_time
      base_fare := t.base_fare
      tax_surcharge := t.tax_surcharge
      total_fare := t.total_fare
      arrival_time := t.arrival_time
      duration := t.duration
      stops := t.stops
      season := t.season
      is_peak_season := t.is_peak_season
      record_hash := ""
      version_number := 1
      is_active := true
      created_date := now
      last_updated_date := now }))

/-! ## Concrete sample inputs used by witnesses and counterexamples -/

/-- A concrete flight-price record. -/
def sampleRecA : Rec :=
  { airline := "AirAstra", source := "DAC", destination := "CXB",
    date_of_journey := "2024-01-01", departure_time := "10:00:00",
    base_fare := "5000.0", tax_surcharge := "500.0", total_fare := "5500.0",
    arrival_time := "11:00:00", duration := "1.0", stops := "0" }

/-- `sampleRecA` with both fares changed and everything else identical. -/
def sampleRecB : Rec :=
  { sampleRecA with base_fare := "7000.0", total_fare := "7500.0" }

/-- A concrete transformed record. -/
def sampleTrans : TransformedRec :=
  { airline := "AirAstra", source := "DAC", destination := "CXB",
    date_of_journey := "2024-01-01", departure_time := "10:00:00",
    base_fare := "5000.0", tax_surcharge := "500.0", total_fare := "5500.0",
    arrival_time := "11:00:00", duration := "1.0", stops := "0",
    season := "Winter", is_peak_season := true }

/-- An analytics row at version 3 whose business key matches `sampleTrans`. -/
def sampleRowV3 : AnalyticsRow :=
  { airline := "AirAstra", source := "DAC", destination := "CXB",
    date_of_journey := "2024-01-01", departure_time := "10:00:00",
    base_fare := "4000.0", tax_surcharge := "400.0", total_fare := "4400.0",
    arrival_time := "11:00:00", duration := "1.0", stops := "1",
    season := "Winter", is_peak_season := true, record_hash := "oldhash",
    version_number := 3, is_active := true,
    created_date := "2023-12-01", last_updated_date := "2023-12-15" }

/-- A staging row carrying an active record with fingerprint `"h1"`. -/
def sampleStagingRow : StagingRow :=
  { data := sampleRecA, record_hash := some "h1", is_active := true }

/-- `sampleStagingRow` after deactivation. -/
def sampleDeactivatedRow : StagingRow :=
  { data := sampleRecA, record_hash := some "h1", is_active := false }

/-! ## Helper lemmas -/

theorem mem_activeHashes (t : List StagingRow) (h : String) :
    h ∈ activeHashes t ↔
      ∃ row, row ∈ t ∧ row.is_active = true ∧ row.record_hash = some h := by
  simp only [activeHashes, get_existing_hashes, List.mem_toFinset,
    List.mem_filterMap, List.mem_filter]
  constructor
  · rintro ⟨row, ⟨hmem, hact⟩, hhash⟩
    exact ⟨row, hmem, hact, hhash⟩
  · rintro ⟨row, hmem, hact, hhash⟩
    exact ⟨row, ⟨hmem, hact⟩, hhash⟩

theorem activeHashes_append (t u : List StagingRow) :
    activeHashes (t ++ u) = activeHashes t ∪ activeHashes u := by
  ext h
  simp only [mem_activeHashes, List.mem_append, Finset.mem_union]
  constructor
  · rintro ⟨row, hmem | hmem, hact, hhash⟩
    · exact Or.inl ⟨row, hmem, hact, hhash⟩
    · exact Or.inr ⟨row, hmem, hact, hhash⟩
  · rintro (⟨row, hmem, hact, hhash⟩ | ⟨row, hmem, hact, hhash⟩)
    · exact ⟨row, Or.inl hmem, hact, hhash⟩
    · exact ⟨row, Or.inr hmem, hact, hhash⟩

theorem activeHashes_apply_deactivation (s : Finset String)
    (t : List StagingRow) :
    activeHashes (apply_deactivation s t) = activeHashes t \ s := by
  ext h
  simp only [mem_activeHashes, apply_deactivation, List.mem_map,
    Finset.mem_sdiff]
  constructor
  · rintro ⟨row', ⟨row, hmem, heq⟩, hact, hhash⟩
    by_cases hc : (match row.record_hash with
        | some h => decide (h ∈ s)
        | none => false) = true
    · rw [if_pos hc] at heq
      subst heq
      simp at hact
    · rw [if_neg hc] at heq
      subst heq
      refine ⟨⟨row, hmem, hact, hhash⟩, ?_⟩
      intro hs
      apply hc
      rw [hhash]
      simpa using hs
  · rintro ⟨⟨row, hmem, hact, hhash⟩, hns⟩
    refine ⟨row, ⟨row, hmem, ?_⟩, hact, hhash⟩
    rw [if_neg]
    rw [hhash]
    simpa using hns

theorem activeHashes_inserted (H : Rec → String) (l : List Rec) :
    activeHashes (l.map (fun r =>
      { data := r, record_hash := some (H r), is_active := true })) =
      (l.map H).toFinset := by
  ext h
  simp only [mem_activeHashes, List.mem_map, List.mem_toFinset]
  constructor
  · rintro ⟨row, ⟨r, hr, rfl⟩, -, hhash⟩
    exact ⟨r, hr, by simpa using hhash⟩
  · rintro ⟨r, hr, hh⟩
    exact ⟨_, ⟨r, hr, rfl⟩, rfl, by simpa using hh⟩

theorem new_records_hashes (H : Rec → String) (df : List Rec)
    (existing : Finset String) :
    ((new_records H df existing).map H).toFinset =
      incoming_hashes H df \ existing := by
  ext h
  simp only [new_records, incoming_hashes, List.mem_toFinset, List.mem_map,
    List.mem_filter, decide_eq_true_eq, Finset.mem_sdiff]
  constructor
  · rintro ⟨r, ⟨hr, hnot⟩, rfl⟩
    exact ⟨⟨r, hr, rfl⟩, hnot⟩
  · rintro ⟨⟨r, hr, rfl⟩, hnot⟩
    exact ⟨r, ⟨hr, hnot⟩, rfl⟩

theorem chunksOf_flatten (n : Nat) (l : List Rec) :
    (chunksOf n l).flatten = l := by
  match l with
  | [] => simp [chunksOf]
  | x :: xs =>
    have ih := chunksOf_flatten n (xs.drop (n - 1))
    simp [chunksOf, ih, List.take_append_drop]
termination_by l.length
decreasing_by simp [List.length_drop]; omega

theorem run_insert_batches_noFail (i : Nat) (cs : List (List Rec)) :
    run_insert_batches (fun _ => false) i cs =
      (cs.flatten.length, cs.flatten) := by
  induction cs generalizing i with
  | nil => rfl
  | cons c cs ih => simp [run_insert_batches, ih]

theorem run_insert_batches_total (f : Nat → Bool) (i : Nat)
    (cs : List (List Rec)) :
    (run_insert_batches f i cs).1 + spec_failed_row_count f i cs =
      cs.flatten.length := by
  induction cs generalizing i with
  | nil => rfl
  | cons c cs ih =>
    have h := ih (i + 1)
    by_cases hf : f i <;>
      simp [run_insert_batches, spec_failed_row_count, hf] at h ⊢ <;> omega

theorem load_rows_inserted_def (md5H sha256H : String → String)
    (ifails : Nat → Bool) (df : List Rec) (table : List StagingRow) :
    (load_to_staging_incremental md5H sha256H ifails df table).rows_inserted =
      (run_insert_batches ifails 0 (chunksOf BATCH_SIZE
        (new_records (DataIngestion.generate_record_hash md5H sha256H) df
          (activeHashes table)))).1 := rfl

theorem load_rows_updated_def (md5H sha256H : String → String)
    (ifails : Nat → Bool) (df : List Rec) (table : List StagingRow) :
    (load_to_staging_incremental md5H sha256H ifails df table).rows_updated =
      0 := rfl

theorem load_rows_unchanged_def (md5H sha256H : String → String)
    (ifails : Nat → Bool) (df : List Rec) (table : List StagingRow) :
    (load_to_staging_incremental md5H sha256H ifails df table).rows_unchanged =
      (existing_records (DataIngestion.generate_record_hash md5H sha256H) df
        (activeHashes table)).length := rfl

theorem load_deactivated_def (md5H sha256H : String → String)
    (ifails : Nat → Bool) (df : List Rec) (table : List StagingRow) :
    (load_to_staging_incremental md5H sha256H ifails df table).deactivated =
      hashes_to_deactivate (DataIngestion.generate_record_hash md5H sha256H)
        df (activeHashes table) := rfl

theorem load_table_def (md5H sha256H : String → String)
    (ifails : Nat → Bool) (df : List Rec) (table : List StagingRow) :
    (load_to_staging_incremental md5H sha256H ifails df table).table =
      apply_deactivation
        (hashes_to_deactivate (DataIngestion.generate_record_hash md5H sha256H)
          df (activeHashes table))
        (table ++ (run_insert_batches ifails 0 (chunksOf BATCH_SIZE
            (new_records (DataIngestion.generate_record_hash md5H sha256H) df
              (activeHashes table)))).2.map (fun r =>
          { data := r,
            record_hash :=
              some (DataIngestion.generate_record_hash md5H sha256H r),
            is_active := true })) := rfl

theorem activeHashes_after_load (md5H sha256H : String → String)
    (df : List Rec) (table : List StagingRow) :
    activeHashes
        (load_to_staging_incremental md5H sha256H (fun _ => false) df
          table).table =
      incoming_hashes (DataIngestion.generate_record_hash md5H sha256H) df := by
  rw [load_table_def, run_insert_batches_noFail, chunksOf_flatten,
    activeHashes_apply_deactivation, activeHashes_append,
    activeHashes_inserted, new_records_hashes]
  ext h
  simp only [Finset.mem_sdiff, Finset.mem_union, hashes_to_deactivate]
  tauto

theorem existing_records_hashes (H : Rec → String) (df : List Rec)
    (existing : Finset String) :
    ((existing_records H df existing).map H).toFinset =
      incoming_hashes H df ∩ existing := by
  ext h
  simp only [existing_records, incoming_hashes, List.mem_toFinset,
    List.mem_map, List.mem_filter, decide_eq_true_eq, Finset.mem_inter]
  constructor
  · rintro ⟨r, ⟨hr, hmem⟩, rfl⟩
    exact ⟨⟨r, hr, rfl⟩, hmem⟩
  · rintro ⟨⟨r, hr, rfl⟩, hmem⟩
    exact ⟨r, ⟨hr, hmem⟩, rfl⟩

theorem apply_deactivation_map_payload (s : Finset String)
    (t : List StagingRow) :
    (apply_deactivation s t).map (fun row => (row.data, row.record_hash)) =
      t.map (fun row => (row.data, row.record_hash)) := by
  induction t with
  | nil => rfl
  | cons row t ih =>
    simp only [apply_deactivation, List.map_cons] at ih ⊢
    by_cases hc : (match row.record_hash with
        | some h => decide (h ∈ s)
        | none => false) = true
    · simp only [if_pos hc, ih]
    · simp only [if_neg hc, ih]

/-! ## Claims -/

/-- C1: change classification is a partition — for every fingerprinted
incoming batch and baseline set, the records classified new are exactly
those whose fingerprint is not in the baseline, the records classified
unchanged exactly those whose fingerprint is in the baseline, the union of
the two classes (as fingerprint sets) is the incoming batch, and the two
classes are disjoint.  `H` is the fingerprint function (instantiated by the
pipeline with `DataIngestion.generate_record_hash`). -/
theorem C1_classification_partition (H : Rec → String) (df : List Rec)
    (baseline : Finset String) :
    incoming_hashes H (new_records H df baseline) ∪
        incoming_hashes H (existing_records H df baseline) =
      incoming_hashes H df
    ∧ Disjoint (incoming_hashes H (new_records H df baseline))
        (incoming_hashes H (existing_records H df baseline))
    ∧ (∀ r, r ∈ new_records H df baseline ↔ r ∈ df ∧ H r ∉ baseline)
    ∧ (∀ r, r ∈ existing_records H df baseline ↔ r ∈ df ∧ H r ∈ baseline) := by
  refine ⟨?_, ?_, ?_, ?_⟩
  · rw [show incoming_hashes H (new_records H df baseline) =
        ((new_records H df baseline).map H).toFinset from rfl,
      show incoming_hashes H (existing_records H df baseline) =
        ((existing_records H df baseline).map H).toFinset from rfl,
      new_records_hashes, existing_records_hashes]
    ext h
    simp only [Finset.mem_union, Finset.mem_sdiff, Finset.mem_inter]
    tauto
  · rw [show incoming_hashes H (new_records H df baseline) =
        ((new_records H df baseline).map H).toFinset from rfl,
      show incoming_hashes H (existing_records H df baseline) =
        ((existing_records H df baseline).map H).toFinset from rfl,
      new_records_hashes, existing_records_hashes, Finset.disjoint_left]
    intro h hmem hmem'
    simp only [Finset.mem_sdiff, Finset.mem_inter] at hmem hmem'
    exact hmem.2 hmem'.2
  · intro r
    simp [new_records, List.mem_filter]
  · intro r
    simp [existing_records, List.mem_filter]

/-- C2: deactivation completeness — the deactivation set is exactly the
baseline minus the incoming fingerprints; an empty incoming batch
deactivates the whole baseline, both as the computed set and as the effect
on the staging table (every row carrying a fingerprint ends up inactive). -/
theorem C2_deactivation_completeness (md5H sha256H : String → String)
    (ifails : Nat → Bool) (df : List Rec) (table : List StagingRow)
    (baseline : Finset String) :
    (∀ h, h ∈ hashes_to_deactivate
        (DataIngestion.generate_record_hash md5H sha256H) df baseline ↔
        h ∈ baseline ∧ h ∉ incoming_hashes
          (DataIngestion.generate_record_hash md5H sha256H) df)
    ∧ hashes_to_deactivate (DataIngestion.generate_record_hash md5H sha256H)
        ([] : List Rec) baseline = baseline
    ∧ (load_to_staging_incremental md5H sha256H ifails df table).deactivated =
        activeHashes table \ incoming_hashes
          (DataIngestion.generate_record_hash md5H sha256H) df
    ∧ (∀ row, row ∈ (load_to_staging_incremental md5H sha256H ifails
        ([] : List Rec) table).table → row.record_hash.isSome →
        row.is_active = false) := by
  refine ⟨?_, ?_, rfl, ?_⟩
  · intro h
    simp [hashes_to_deactivate, Finset.mem_sdiff]
  · simp [hashes_to_deactivate, incoming_hashes]
  · intro row hrow hsome
    have htbl : (load_to_staging_incremental md5H sha256H ifails
        ([] : List Rec) table).table =
        apply_deactivation (activeHashes table) table := by
      rw [load_table_def]
      simp [new_records, chunksOf, run_insert_batches, hashes_to_deactivate,
        incoming_hashes]
    rw [htbl] at hrow
    simp only [apply_deactivation, List.mem_map] at hrow
    obtain ⟨row₀, hmem, rfl⟩ := hrow
    match hh : row₀.record_hash with
    | none => simp [hh] at hsome ⊢
    | some h =>
      by_cases hin : h ∈ activeHashes table
      · simp [hh, hin]
      · have hact : row₀.is_active = false := by
          by_contra hcon
          exact hin ((mem_activeHashes table h).mpr
            ⟨row₀, hmem, Bool.not_eq_false _ ▸ eq_true_of_ne_false hcon, hh⟩)
        simp [hh, hin, hact]

/-- C9: the baseline reader returns the fingerprints of the records flagged
active; on a storage error it returns the empty set instead of raising, and
an empty baseline degrades to classifying every incoming record as new and
none as unchanged. -/
theorem C9_baseline_reader_error_handling (e : String)
    (rows : List StagingRow) (H : Rec → String) (df : List Rec) :
    get_existing_hashes (.error e) = ∅
    ∧ (∀ h, h ∈ get_existing_hashes (.ok rows) ↔
        ∃ row, row ∈ rows ∧ row.is_active = true ∧ row.record_hash = some h)
    ∧ new_records H df (get_existing_hashes (.error e)) = df
    ∧ existing_records H df (get_existing_hashes (.error e)) = [] := by
  refine ⟨rfl, fun h => mem_activeHashes rows h, ?_, ?_⟩
  · simp [new_records, get_existing_hashes]
  · simp [existing_records, get_existing_hashes]

/-- C10: the incremental staging load returns `rows_updated = 0`
identically, the INCREMENTAL run result always reports `rows_updated = 0`
and `rows_failed = 0`, and the load never modifies the payload of any
pre-existing staging row (only activity flags change and new rows are
appended). -/
theorem C10_incremental_never_updates (md5H sha256H : String → String)
    (ifails : Nat → Bool) (df : List Rec) (table : List StagingRow) :
    (load_to_staging_incremental md5H sha256H ifails df table).rows_updated = 0
    ∧ (execute_ingestion_incremental md5H sha256H ifails df
        table).1.rows_updated = 0
    ∧ (execute_ingestion_incremental md5H sha256H ifails df
        table).1.rows_failed = 0
    ∧ (execute_ingestion_incremental md5H sha256H ifails df
        table).1.load_mode = "INCREMENTAL"
    ∧ (execute_ingestion_incremental md5H sha256H ifails df
        table).1.status = "SUCCESS"
    ∧ ((load_to_staging_incremental md5H sha256H ifails df table).table.take
          table.length).map (fun row => (row.data, row.record_hash)) =
        table.map (fun row => (row.data, row.record_hash)) := by
  refine ⟨rfl, rfl, rfl, rfl, rfl, ?_⟩
  rw [load_table_def]
  simp only [apply_deactivation, ← List.map_take, List.take_left]
  exact apply_deactivation_map_payload _ table

/-- C3: idempotence of a no-op run — after a fully successful incremental
load of a batch, re-running the load with the identical batch against the
resulting staging table inserts zero rows, deactivates nothing, counts every
record unchanged, and classifies every record as unchanged. -/
theorem C3_second_run_is_noop (md5H sha256H : String → String)
    (df : List Rec) (table : List StagingRow) :
    (load_to_staging_incremental md5H sha256H (fun _ => false) df
        (load_to_staging_incremental md5H sha256H (fun _ => false) df
          table).table).rows_inserted = 0
    ∧ (load_to_staging_incremental md5H sha256H (fun _ => false) df
        (load_to_staging_incremental md5H sha256H (fun _ => false) df
          table).table).deactivated = ∅
    ∧ (load_to_staging_incremental md5H sha256H (fun _ => false) df
        (load_to_staging_incremental md5H sha256H (fun _ => false) df
          table).table).rows_unchanged = df.length
    ∧ existing_records (DataIngestion.generate_record_hash md5H sha256H) df
        (activeHashes (load_to_staging_incremental md5H sha256H
          (fun _ => false) df table).table) = df := by
  have hE := activeHashes_after_load md5H sha256H df table
  have hmem : ∀ r ∈ df,
      DataIngestion.generate_record_hash md5H sha256H r ∈
        incoming_hashes (DataIngestion.generate_record_hash md5H sha256H)
          df := by
    intro r hr
    simp only [incoming_hashes, List.mem_toFinset, List.mem_map]
    exact ⟨r, hr, rfl⟩
  have hnew : new_records (DataIngestion.generate_record_hash md5H sha256H)
      df (activeHashes (load_to_staging_incremental md5H sha256H
        (fun _ => false) df table).table) = [] := by
    rw [hE]
    refine List.filter_eq_nil_iff.mpr ?_
    intro r hr
    simpa using hmem r hr
  have hex : existing_records
      (DataIngestion.generate_record_hash md5H sha256H) df
      (activeHashes (load_to_staging_incremental md5H sha256H
        (fun _ => false) df table).table) = df := by
    rw [hE]
    refine List.filter_eq_self.mpr ?_
    intro r hr
    simpa using hmem r hr
  refine ⟨?_, ?_, ?_, hex⟩
  · rw [load_rows_inserted_def, hnew]
    simp [chunksOf, run_insert_batches]
  · rw [load_deactivated_def]
    simp only [hashes_to_deactivate, hE, Finset.sdiff_self]
  · rw [load_rows_unchanged_def, hex]

/-- C4 (amended): the selector returns FULL_REFRESH when the incremental
flag is disabled, otherwise compares a canonicalized weekday with the
configured full-refresh day; but the canonicalization only moves Sunday to
0 and leaves the other days at Python's Monday-is-0 indexing, so it agrees
with the Sunday-starts-the-week convention at Sunday alone, and Monday
collides with Sunday at index 0. -/
theorem C4_load_strategy_selector (flag : Bool) (frd : Nat) (d : Day) :
    should_use_incremental_load flag frd (pythonWeekday d) =
      (flag && !(decide (observedCanonicalIndex d = frd)))
    ∧ should_use_incremental_load false frd (pythonWeekday d) = false
    ∧ observedCanonicalIndex Day.sunday = 0
    ∧ observedCanonicalIndex Day.monday = 0
    ∧ observedCanonicalIndex Day.sunday = sundayStartIndex Day.sunday := by
  refine ⟨?_, rfl, rfl, rfl, rfl⟩
  cases flag with
  | false => rfl
  | true =>
    by_cases hc : canonicalizeWeekday (pythonWeekday d) = frd <;>
      simp [should_use_incremental_load, observedCanonicalIndex, hc]

/-- C4 counterexample: the claimed canonicalization (Sunday 0, Monday 1,
..., Saturday 6) fails on Monday — the code maps Monday to 0, not 1, so
with the default `full_refresh_day = 0` Monday also triggers FULL_REFRESH
even with the incremental flag enabled. -/
theorem C4_counterexample :
    observedCanonicalIndex Day.monday = 0
    ∧ sundayStartIndex Day.monday = 1
    ∧ observedCanonicalIndex Day.monday ≠ sundayStartIndex Day.monday
    ∧ should_use_incremental_load true FULL_REFRESH_DAY
        (pythonWeekday Day.monday) = false
    ∧ Day.monday ≠ Day.sunday := by
  decide

/-- C5 (amended): the ingestion fingerprint is a digest of the ordered
concatenation of the seven identity fields — records agreeing on those
seven agree on the fingerprint whatever the other fields hold, changing any
single one of the seven (others fixed) changes the digest input, and
changing a non-identity field leaves the fingerprint unchanged.  The
transformation module's fingerprint, however, is a digest of only five
fields: it is insensitive to the two fare fields, so the seven-field
contract does not hold for every fingerprint computation in the system. -/
theorem C5_fingerprint_identity_sensitivity (md5H sha256H : String → String)
    (r : Rec) :
    (∀ t1 t2 t3 t4 : String,
      DataIngestion.generate_record_hash md5H sha256H
          { r with tax_surcharge := t1, arrival_time := t2,
                   duration := t3, stops := t4 } =
        DataIngestion.generate_record_hash md5H sha256H r)
    ∧ (∀ x, DataIngestion.key_fields { r with airline := x } =
        DataIngestion.key_fields r ↔ x = r.airline)
    ∧ (∀ x, DataIngestion.key_fields { r with source := x } =
        DataIngestion.key_fields r ↔ x = r.source)
    ∧ (∀ x, DataIngestion.key_fields { r with destination := x } =
        DataIngestion.key_fields r ↔ x = r.destination)
    ∧ (∀ x, DataIngestion.key_fields { r with date_of_journey := x } =
        DataIngestion.key_fields r ↔ x = r.date_of_journey)
    ∧ (∀ x, DataIngestion.key_fields { r with departure_time := x } =
        DataIngestion.key_fields r ↔ x = r.departure_time)
    ∧ (∀ x, DataIngestion.key_fields { r with base_fare := x } =
        DataIngestion.key_fields r ↔ x = r.base_fare)
    ∧ (∀ x, DataIngestion.key_fields { r with total_fare := x } =
        DataIngestion.key_fields r ↔ x = r.total_fare)
    ∧ (∀ b t t1 t2 t3 t4 : String,
      DataTransformer.generate_record_hash md5H sha256H
          { r with base_fare := b, total_fare := t, tax_surcharge := t1,
                   arrival_time := t2, duration := t3, stops := t4 } =
        DataTransformer.generate_record_hash md5H sha256H r) := by
  obtain ⟨a, b, c, d, e, f, g, h2, i, j, k⟩ := r
  refine ⟨fun _ _ _ _ => rfl, ?_, ?_, ?_, ?_, ?_, ?_, ?_,
    fun _ _ _ _ _ _ => rfl⟩ <;>
    intro x <;>
    simp [DataIngestion.key_fields, String.ext_iff, String.data_append,
      List.append_assoc]

/-- C5 counterexample: two records that differ in both fare fields (and
agree elsewhere) feed the transformation fingerprint the very same digest
input, so whatever digest is used their transformation fingerprints
coincide — the fingerprint computed in `data_transformation.py` does not
depend on the fare identity fields, while the ingestion digest input does
distinguish them. -/
theorem C5_counterexample :
    DataTransformer.key_fields sampleRecB = DataTransformer.key_fields
      sampleRecA
    ∧ sampleRecB.base_fare ≠ sampleRecA.base_fare
    ∧ sampleRecB.total_fare ≠ sampleRecA.total_fare
    ∧ DataIngestion.key_fields sampleRecB ≠ DataIngestion.key_fields
      sampleRecA := by
  refine ⟨rfl, by decide, by decide, by decide⟩

/-- C6: upsert postconditions — on a business-key conflict the matching row
keeps its key and first-seen timestamp, takes all mutable fields from the
incoming record, gets `version_number + 1`, `is_active = true` and a fresh
`last_updated_date`; rows whose key does not match are untouched; with no
conflicting row at all the record is appended with `version_number = 1`,
`is_active = true` and first-seen set to now (the insert defaults are
modelled from the spec, the defining migration SQL being outside the source
tree). -/
theorem C6_upsert_postconditions (t : TransformedRec) (h now : String)
    (table : List AnalyticsRow) :
    ((∀ row, row ∈ table → row.businessKey ≠ t.businessKey) →
      upsert_row t h now table = (table ++ [upsertInsert t h now], true)
      ∧ (upsertInsert t h now).version_number = 1
      ∧ (upsertInsert t h now).is_active = true
      ∧ (upsertInsert t h now).created_date = now
      ∧ (upsertInsert t h now).last_updated_date = now)
    ∧ (∀ (i : Nat) (row : AnalyticsRow), table[i]? = some row →
      row.businessKey = t.businessKey →
      ∃ row', (upsert_row t h now table).1[i]? = some row'
        ∧ row'.version_number = row.version_number + 1
        ∧ row'.is_active = true
        ∧ row'.last_updated_date = now
        ∧ row'.created_date = row.created_date
        ∧ row'.businessKey = row.businessKey
        ∧ row'.base_fare = t.base_fare
        ∧ row'.tax_surcharge = t.tax_surcharge
        ∧ row'.total_fare = t.total_fare
        ∧ row'.arrival_time = t.arrival_time
        ∧ row'.duration = t.duration
        ∧ row'.stops = t.stops
        ∧ row'.season = t.season
        ∧ row'.is_peak_season = t.is_peak_season
        ∧ row'.record_hash = h)
    ∧ (∀ (i : Nat) (row : AnalyticsRow), table[i]? = some row →
      row.businessKey ≠ t.businessKey →
      (upsert_row t h now table).1[i]? = some row) := by
  refine ⟨?_, ?_, ?_⟩
  · intro hno
    have hany : (table.any fun row =>
        decide (row.businessKey = t.businessKey)) = false := by
      rw [List.any_eq_false]
      intro row hrow
      simpa using hno row hrow
    simp only [upsert_row, hany]
    exact ⟨rfl, rfl, rfl, rfl, rfl⟩
  · intro i row hi hkey
    have hrowmem : row ∈ table := List.getElem?_mem hi
    have hany : (table.any fun row =>
        decide (row.businessKey = t.businessKey)) = true := by
      rw [List.any_eq_true]
      exact ⟨row, hrowmem, by simpa using hkey⟩
    refine ⟨upsertUpdate t h now row, ?_,
      rfl, rfl, rfl, rfl, rfl, rfl, rfl, rfl, rfl, rfl, rfl, rfl, rfl, rfl⟩
    simp [upsert_row, hany, List.getElem?_map, hi, hkey]
  · intro i row hi hkey
    by_cases hany : (table.any fun row =>
        decide (row.businessKey = t.businessKey)) = true
    · simp [upsert_row, hany, List.getElem?_map, hi, hkey]
    · have hfalse : (table.any fun row =>
          decide (row.businessKey = t.businessKey)) = false := by
        simpa using hany
      have hlt : i < table.length := by
        obtain ⟨hlt, -⟩ := List.getElem?_eq_some.mp hi
        exact hlt
      simp only [upsert_row, hfalse, Bool.false_eq_true, if_false]
      rw [List.getElem?_append_left hlt]
      exact hi

/-- C6 witness: upserting a record whose identity matches `sampleRowV3`
(version 3) yields version 4, active true, a refreshed last-updated
timestamp and an untouched first-seen timestamp. -/
theorem C6_upsert_witness :
    ([sampleRowV3][0]? = some sampleRowV3)
    ∧ sampleRowV3.businessKey = sampleTrans.businessKey
    ∧ sampleRowV3.version_number = 3
    ∧ ∃ row', (upsert_row sampleTrans "newhash" "2024-02-02"
          [sampleRowV3]).1[0]? = some row'
        ∧ row'.version_number = sampleRowV3.version_number + 1
        ∧ row'.is_active = true
        ∧ row'.last_updated_date = "2024-02-02"
        ∧ row'.created_date = sampleRowV3.created_date := by
  refine ⟨rfl, by decide, rfl, ?_⟩
  obtain ⟨row', h1, h2, h3, h4, h5, -⟩ :=
    (C6_upsert_postconditions sampleTrans "newhash" "2024-02-02"
      [sampleRowV3]).2.1 0 sampleRowV3 rfl (by decide)
  exact ⟨row', h1, h2, h3, h4, h5⟩

theorem upsert_row_version_mono (t : TransformedRec) (h now : String)
    (table : List AnalyticsRow) (i : Nat) (row : AnalyticsRow)
    (hi : table[i]? = some row) :
    ∃ row', (upsert_row t h now table).1[i]? = some row'
      ∧ row'.businessKey = row.businessKey
      ∧ row.version_number ≤ row'.version_number := by
  by_cases hany : (table.any fun row =>
      decide (row.businessKey = t.businessKey)) = true
  · by_cases hkey : row.businessKey = t.businessKey
    · refine ⟨upsertUpdate t h now row, ?_, rfl, Nat.le_succ _⟩
      simp [upsert_row, hany, List.getElem?_map, hi, hkey]
    · refine ⟨row, ?_, rfl, Nat.le_refl _⟩
      simp [upsert_row, hany, List.getElem?_map, hi, hkey]
  · have hfalse : (table.any fun row =>
        decide (row.businessKey = t.businessKey)) = false := by
      simpa using hany
    have hlt : i < table.length := by
      obtain ⟨hlt, -⟩ := List.getElem?_eq_some.mp hi
      exact hlt
    refine ⟨row, ?_, rfl, Nat.le_refl _⟩
    simp only [upsert_row, hfalse, Bool.false_eq_true, if_false]
    rw [List.getElem?_append_left hlt]
    exact hi

theorem save_incr_version_mono (md5H sha256H : String → String)
    (now : String) (df : List TransformedRec) (table : List AnalyticsRow)
    (i : Nat) (row : AnalyticsRow) (hi : table[i]? = some row) :
    ∃ row', (save_to_analytics_db_incremental md5H sha256H now df
        table).2.2[i]? = some row'
      ∧ row'.businessKey = row.businessKey
      ∧ row.version_number ≤ row'.version_number := by
  induction df generalizing table row with
  | nil => exact ⟨row, hi, rfl, Nat.le_refl _⟩
  | cons t ts ih =>
    have hcons : (save_to_analytics_db_incremental md5H sha256H now
        (t :: ts) table).2.2 =
        (save_to_analytics_db_incremental md5H sha256H now ts
          (upsert_row t (DataTransformer.generate_record_hash md5H sha256H
            t.toRec) now table).1).2.2 := by
      simp only [save_to_analytics_db_incremental]
      split <;> rfl
    rw [hcons]
    obtain ⟨row₁, h1, hkey1, hle1⟩ := upsert_row_version_mono t
      (DataTransformer.generate_record_hash md5H sha256H t.toRec) now
      table i row hi
    obtain ⟨row₂, h2, hkey2, hle2⟩ := ih _ row₁ h1
    exact ⟨row₂, h2, hkey2.trans hkey1, hle1.trans hle2⟩

/-- C7 (amended): for a given business key the version number never
decreases across incremental upsert runs; the full-refresh save, however,
truncates the analytics table and reinserts every row at version 1, so
across a full refresh a key's version can drop. -/
theorem C7_version_monotonicity (md5H sha256H : String → String)
    (now : String) (df : List TransformedRec) (table : List AnalyticsRow) :
    (∀ (i : Nat) (row : AnalyticsRow), table[i]? = some row →
      ∃ row', (save_to_analytics_db_incremental md5H sha256H now df
          table).2.2[i]? = some row'
        ∧ row'.businessKey = row.businessKey
        ∧ row.version_number ≤ row'.version_number)
    ∧ (∀ row', row' ∈ (save_to_analytics_db now df table).2 →
        row'.version_number = 1) := by
  refine ⟨fun i row hi => save_incr_version_mono md5H sha256H now df table
    i row hi, ?_⟩
  intro row' hmem
  simp only [save_to_analytics_db, List.mem_map] at hmem
  obtain ⟨t, -, rfl⟩ := hmem
  rfl

/-- C7 witness: the monotonicity part applied to a one-row table at
version 3 and a one-record batch matching its key. -/
theorem C7_version_monotonicity_witness :
    ([sampleRowV3][0]? = some sampleRowV3)
    ∧ ∃ row', (save_to_analytics_db_incremental (fun s => s) (fun s => s)
        "2024-02-02" [sampleTrans] [sampleRowV3]).2.2[0]? = some row'
      ∧ row'.businessKey = sampleRowV3.businessKey
      ∧ sampleRowV3.version_number ≤ row'.version_number := by
  exact ⟨rfl, (C7_version_monotonicity (fun s => s) (fun s => s)
    "2024-02-02" [sampleTrans] [sampleRowV3]).1 0 sampleRowV3 rfl⟩

/-- C7 counterexample: a full-refresh load over a table holding a row at
version 3 rebuilds the table with that business key at version 1 — the
version number decreased, so monotonicity does not hold across every
operation the pipeline performs on the analytics store. -/
theorem C7_counterexample :
    sampleRowV3.version_number = 3
    ∧ sampleTrans.businessKey = sampleRowV3.businessKey
    ∧ ((save_to_analytics_db "2024-02-02" [sampleTrans] [sampleRowV3]).2.map
        (fun row => (row.businessKey, row.version_number))) =
      [(sampleRowV3.businessKey, 1)]
    ∧ ¬ (3 ≤ 1) := by
  refine ⟨rfl, by decide, by decide, by decide⟩

/-- C8 (amended): a failing insert batch during an incremental load is
caught — the load still completes and every remaining batch is attempted,
so the rows actually inserted plus the rows of failed batches account for
all new records — but the failed rows are not recorded anywhere: the run
result always reports `rows_failed = 0` and status SUCCESS. -/
theorem C8_insert_batch_failure_isolation (md5H sha256H : String → String)
    (ifails : Nat → Bool) (df : List Rec) (table : List StagingRow) :
    (load_to_staging_incremental md5H sha256H ifails df table).rows_inserted
        + spec_failed_row_count ifails 0 (chunksOf BATCH_SIZE
          (new_records (DataIngestion.generate_record_hash md5H sha256H) df
            (activeHashes table))) =
      (new_records (DataIngestion.generate_record_hash md5H sha256H) df
        (activeHashes table)).length
    ∧ (execute_ingestion_incremental md5H sha256H ifails df
        table).1.rows_failed = 0
    ∧ (execute_ingestion_incremental md5H sha256H ifails df
        table).1.status = "SUCCESS" := by
  refine ⟨?_, rfl, rfl⟩
  rw [load_rows_inserted_def]
  have h := run_insert_batches_total ifails 0 (chunksOf BATCH_SIZE
    (new_records (DataIngestion.generate_record_hash md5H sha256H) df
      (activeHashes table)))
  rwa [chunksOf_flatten] at h

/-- C8 counterexample: with a single new record whose (only) insert batch
fails, one row failed, yet the run result reports `rows_failed = 0` (and
`rows_inserted = 0`) — the failed rows are not recorded in any failed-row
count contributing to the run result. -/
theorem C8_counterexample :
    spec_failed_row_count (fun _ => true) 0 (chunksOf BATCH_SIZE
        (new_records (DataIngestion.generate_record_hash (fun s => s)
          (fun s => s)) [sampleRecA] (activeHashes []))) = 1
    ∧ (execute_ingestion_incremental (fun s => s) (fun s => s)
        (fun _ => true) [sampleRecA] []).1.rows_failed = 0
    ∧ (execute_ingestion_incremental (fun s => s) (fun s => s)
        (fun _ => true) [sampleRecA] []).1.rows_inserted = 0
    ∧ (execute_ingestion_incremental (fun s => s) (fun s => s)
        (fun _ => true) [sampleRecA] []).1.status = "SUCCESS" := by
  have hnew : new_records (DataIngestion.generate_record_hash (fun s => s)
      (fun s => s)) [sampleRecA] (activeHashes []) = [sampleRecA] := by
    simp [new_records, activeHashes, get_existing_hashes]
  have hchunks : chunksOf BATCH_SIZE [sampleRecA] = [[sampleRecA]] := by
    simp [chunksOf]
  refine ⟨?_, rfl, ?_, rfl⟩
  · rw [hnew, hchunks]
    rfl
  · show (load_to_staging_incremental (fun s => s) (fun s => s)
      (fun _ => true) [sampleRecA] []).rows_inserted = 0
    rw [load_rows_inserted_def, hnew, hchunks]
    rfl

/-- C2 witness: with baseline `{"h1"}` and an empty incoming batch the
whole baseline is deactivated, and the staging row carrying `"h1"` comes
out of the load inactive. -/
theorem C2_deactivation_witness :
    hashes_to_deactivate (DataIngestion.generate_record_hash (fun s => s)
        (fun s => s)) ([] : List Rec) ({"h1"} : Finset String) = {"h1"}
    ∧ sampleDeactivatedRow ∈
        (load_to_staging_incremental (fun s => s) (fun s => s)
          (fun _ => false) ([] : List Rec) [sampleStagingRow]).table
    ∧ sampleDeactivatedRow.record_hash.isSome = true
    ∧ sampleDeactivatedRow.is_active = false := by
  have htbl : (load_to_staging_incremental (fun s => s) (fun s => s)
      (fun _ => false) ([] : List Rec) [sampleStagingRow]).table =
      apply_deactivation (activeHashes [sampleStagingRow])
        [sampleStagingRow] := by
    rw [load_table_def]
    simp [new_records, chunksOf, run_insert_batches, hashes_to_deactivate,
      incoming_hashes]
  have hmem : sampleDeactivatedRow ∈
      (load_to_staging_incremental (fun s => s) (fun s => s)
        (fun _ => false) ([] : List Rec) [sampleStagingRow]).table := by
    rw [htbl]
    decide
  exact ⟨(C2_deactivation_completeness (fun s => s) (fun s => s)
      (fun _ => false) ([] : List Rec) [sampleStagingRow]
      ({"h1"} : Finset String)).2.1,
    hmem, rfl,
    (C2_deactivation_completeness (fun s => s) (fun s => s)
      (fun _ => false) ([] : List Rec) [sampleStagingRow]
      ({"h1"} : Finset String)).2.2.2 _ hmem rfl⟩
